import Mathlib

/-!
Shallow embedding of the `query_builder` module of `src/src/lib.rs` (the
`pinto` SQL query-builder crate) together with a verification of its
specification.

Modelling conventions:
* Rust `&str` fragments become `String`.
* `Option<Vec<T>>` becomes `Option (List T)`.
* `std::collections::HashMap<&str, &str>` becomes an association list
  `List (String × String)` whose keys are unique.  The iteration order of the
  Rust map is unspecified; the model fixes one concrete valid order
  (insertion order with in-place overwrite), which is a legitimate
  instantiation of the unspecified behaviour.
* The crate's own helper `join` computes `v.len() - 1` and therefore fails on
  an empty slice (an index underflow / debug panic).  It is modelled as an
  `Option String` returning `none` on the empty list, and every `build`
  threads that failure through, so `build` returns `none` exactly when the
  helper is reached with an empty sequence.
* `usize` values (`limit`, `offset`) become `Nat`; only `!= 0` comparisons and
  decimal rendering are performed on them in the source.
-/

namespace query_builder

/-- The direction of an `ORDER` clause's expression (`Order` in the source). -/
inductive Order where
  | Asc
  | Desc
deriving DecidableEq

/-- The type of `JOIN` to perform (`Join` in the source). -/
inductive Join where
  | Left
  | Inner
deriving DecidableEq

/-- A helper struct for the `JOIN` clause (`JoinClause` in the source). -/
structure JoinClause where
  table : String
  on_left : String
  on_right : String
  kind : Join
deriving DecidableEq

/-- Lookup in the association list modelling `HashMap::get`. -/
def aListLookup (m : List (String × String)) (k : String) : Option String :=
  match m with
  | [] => none
  | (k2, v) :: rest => if k2 = k then some v else aListLookup rest k

/-- `HashMap::insert`: overwrite the value when the key is present, otherwise
add the pair.  The position chosen for a fresh pair is one concrete
instantiation of the map's unspecified iteration order. -/
def mapInsert (m : List (String × String)) (k v : String) : List (String × String) :=
  match m with
  | [] => [(k, v)]
  | (k2, v2) :: rest => if k2 = k then (k, v) :: rest else (k2, v2) :: mapInsert rest k v

/-- Fragments interleaved with a separator and no leading/trailing separator:
the string computed by the source's `join` loop on a non-empty slice, and by
`std`'s `[String]::join` (used by `Update::build`) on any slice. -/
def sepConcat (sep : String) : List String → String
  | [] => ""
  | [x] => x
  | x :: y :: xs => x ++ sep ++ sepConcat sep (y :: xs)

/-- The crate's `join` helper: `let last_i = v.len() - 1` underflows on an
empty slice, so the empty case is modelled as `none`; on a non-empty slice the
loop inserts `sep` after every element but the last. -/
def join (v : List String) (sep : String) : Option String :=
  match v with
  | [] => none
  | x :: xs => some (sepConcat sep (x :: xs))

/-- Concatenation of a list of strings with no separator at all (the result of
a Rust loop appending each rendered item directly onto the query). -/
def concatAll : List String → String
  | [] => ""
  | x :: xs => x ++ concatAll xs

/-- `DELETE` builder state. -/
structure Delete where
  table : String
  conditions : Option (List String)
deriving DecidableEq

/-- `INSERT` builder state. -/
structure Insert where
  table : String
  values : List (String × String)
  returns : Option (List String)
deriving DecidableEq

/-- `SELECT` builder state. -/
structure Select where
  table : String
  aliases : Option (List (String × String))
  fields : Option (List String)
  order : Option (List (String × Order))
  joins : Option (List JoinClause)
  groupings : Option (List String)
  havings : Option (List String)
  conditions : Option (List String)
  limit : Nat
  offset : Nat
deriving DecidableEq

/-- `UPDATE` builder state. -/
structure Update where
  table : String
  values : List (String × String)
  conditions : Option (List String)
  returns : Option (List String)
deriving DecidableEq

/-- Optional ` WHERE …` segment: `None` conditions render nothing, otherwise
` WHERE ` followed by the conditions joined with ` AND ` by the fallible
helper. -/
def whereSeg : Option (List String) → Option String
  | some conditions => Option.map (fun j => " WHERE " ++ j) (join conditions " AND ")
  | none => some ""

/-- Optional ` RETURNING …` segment (Insert and Update). -/
def returningSeg : Option (List String) → Option String
  | some returns => Option.map (fun j => " RETURNING " ++ j) (join returns ", ")
  | none => some ""

/-- Optional ` GROUP BY …` segment (Select). -/
def groupSeg : Option (List String) → Option String
  | some groupings => Option.map (fun j => " GROUP BY " ++ j) (join groupings ", ")
  | none => some ""

/-- Optional ` HAVING …` segment (Select). -/
def havingSeg : Option (List String) → Option String
  | some havings => Option.map (fun j => " HAVING " ++ j) (join havings " AND ")
  | none => some ""

/-- The field list of a `SELECT`: the configured fields joined with `", "`, or
`*` when absent. -/
def fieldsSeg : Option (List String) → Option String
  | some fields => join fields ", "
  | none => some "*"

/-- Text appended for one `JoinClause` inside `Select::build`'s join loop:
`LEFT`/`INNER`, ` JOIN `, the joined table, its alias when one is recorded,
and the `ON` equation. -/
def renderJoinClause (aliases : Option (List (String × String))) (j : JoinClause) : String :=
  (match j.kind with
   | Join.Left => " LEFT"
   | Join.Inner => " INNER")
  ++ " JOIN " ++ j.table
  ++ (match aliases with
      | some m =>
        (match aListLookup m j.table with
         | some a => " AS " ++ a
         | none => "")
      | none => "")
  ++ " ON " ++ j.on_left ++ " = " ++ j.on_right

/-- Text appended for one order item inside `Select::build`'s order loop: the
expression directly followed by ` ASC` or ` DESC`. -/
def renderOrderItem (item : String × Order) : String :=
  item.1 ++ (match item.2 with
             | Order.Asc => " ASC"
             | Order.Desc => " DESC")

/-- `Delete::new`. -/
def Delete.new (table : String) : Delete :=
  ⟨table, none⟩

/-- `Delete::filter`: initialize the conditions on first use, then push. -/
def Delete.filter (self : Delete) (expr : String) : Delete :=
  { self with conditions := some (self.conditions.getD [] ++ [expr]) }

/-- `Delete::build`. -/
def Delete.build (self : Delete) : Option String :=
  match whereSeg self.conditions with
  | some wstr => some ("DELETE FROM " ++ self.table ++ wstr ++ ";")
  | none => none

/-- `Insert::new`. -/
def Insert.new (table : String) : Insert :=
  ⟨table, [], none⟩

/-- `Insert::set`: insert/overwrite the field → value pair. -/
def Insert.set (self : Insert) (field value : String) : Insert :=
  { self with values := mapInsert self.values field value }

/-- `Insert::returning`: initialize the returning list on first use, then push. -/
def Insert.returning (self : Insert) (field : String) : Insert :=
  { self with returns := some (self.returns.getD [] ++ [field]) }

/-- `Insert::build`: columns and values are pushed pairwise while iterating the
map, then each list is joined; the helper is reached even when the map is
empty. -/
def Insert.build (self : Insert) : Option String :=
  let columns := self.values.map Prod.fst
  let values := self.values.map Prod.snd
  match join columns ", ", join values ", ", returningSeg self.returns with
  | some cj, some vj, some rstr =>
      some ("INSERT INTO " ++ self.table ++ " (" ++ cj ++ ") VALUES (" ++ vj ++ ")"
        ++ rstr ++ ";")
  | _, _, _ => none

/-- `Select::new`: all optional collections absent, limit and offset zero. -/
def Select.new (table : String) : Select :=
  ⟨table, none, none, none, none, none, none, none, 0, 0⟩

/-- `Select::alias`: record an alias keyed by table name. -/
def Select.alias (self : Select) (table a : String) : Select :=
  { self with aliases := some (mapInsert (self.aliases.getD []) table a) }

/-- `Select::fields`: initialize on first use, then push every given field
(note: an empty argument list still initializes the collection). -/
def Select.addFields (self : Select) (fs : List String) : Select :=
  { self with fields := some (self.fields.getD [] ++ fs) }

/-- `Select::filter`. -/
def Select.filter (self : Select) (expr : String) : Select :=
  { self with conditions := some (self.conditions.getD [] ++ [expr]) }

/-- `Select::group_by`. -/
def Select.group_by (self : Select) (val : String) : Select :=
  { self with groupings := some (self.groupings.getD [] ++ [val]) }

/-- `Select::having`. -/
def Select.having (self : Select) (expr : String) : Select :=
  { self with havings := some (self.havings.getD [] ++ [expr]) }

/-- `Select::order_by`. -/
def Select.order_by (self : Select) (expr : String) (direction : Order) : Select :=
  { self with order := some (self.order.getD [] ++ [(expr, direction)]) }

/-- `Select::join`. -/
def Select.join (self : Select) (table on_left on_right : String) (kind : Join) : Select :=
  { self with joins := some (self.joins.getD [] ++ [⟨table, on_left, on_right, kind⟩]) }

/-- `Select::limit` (overwrites, not additive). -/
def Select.setLimit (self : Select) (limit : Nat) : Select :=
  { self with limit := limit }

/-- `Select::offset` (overwrites, not additive). -/
def Select.setOffset (self : Select) (offset : Nat) : Select :=
  { self with offset := offset }

/-- `Select::build`: the fallible `join` calls of the four list-joined clauses
are evaluated up front (the failure of any of them is the failure of the whole
render); the remaining rendering follows the source's append order exactly. -/
def Select.build (self : Select) : Option String :=
  match fieldsSeg self.fields, whereSeg self.conditions,
        groupSeg self.groupings, havingSeg self.havings with
  | some fstr, some wstr, some gstr, some hstr =>
    let q := "SELECT " ++ fstr ++ " FROM " ++ self.table
      ++ (match self.aliases with
          | some aliases =>
            (match aListLookup aliases self.table with
             | some a => " AS " ++ a
             | none => "")
          | none => "")
    let q := (match self.joins with
        | some joins => List.foldl (fun q j => q ++ renderJoinClause self.aliases j) q joins
        | none => q)
    let q := q ++ wstr ++ gstr ++ hstr
    let q := (match self.order with
        | some order =>
          List.foldl (fun q item => q ++ renderOrderItem item) (q ++ " ORDER BY ") order
        | none => q)
    let q := if self.limit ≠ 0 then q ++ " LIMIT " ++ toString self.limit else q
    let q := if self.offset ≠ 0 then q ++ " OFFSET " ++ toString self.offset else q
    some (q ++ ";")
  | _, _, _, _ => none

/-- `Update::new`. -/
def Update.new (table : String) : Update :=
  ⟨table, [], none, none⟩

/-- `Update::set`. -/
def Update.set (self : Update) (field value : String) : Update :=
  { self with values := mapInsert self.values field value }

/-- `Update::returning`. -/
def Update.returning (self : Update) (field : String) : Update :=
  { self with returns := some (self.returns.getD [] ++ [field]) }

/-- `Update::filter`. -/
def Update.filter (self : Update) (expr : String) : Update :=
  { self with conditions := some (self.conditions.getD [] ++ [expr]) }

/-- `Update::build`: assignments `field = value` joined by `std`'s total
`[String]::join` with separator `" AND "` (so an empty map yields the empty
assignment text), then the optional WHERE and RETURNING clauses. -/
def Update.build (self : Update) : Option String :=
  let assignments := self.values.map (fun p => p.1 ++ " = " ++ p.2)
  match whereSeg self.conditions, returningSeg self.returns with
  | some wstr, some rstr =>
      some ("UPDATE " ++ self.table ++ " SET " ++ sepConcat " AND " assignments
        ++ wstr ++ rstr ++ ";")
  | _, _ => none

/-- Free function `delete`. -/
def delete (table : String) : Delete := Delete.new table

/-- Free function `insert`. -/
def insert (table : String) : Insert := Insert.new table

/-- Free function `select`. -/
def select (table : String) : Select := Select.new table

/-- Free function `update`. -/
def update (table : String) : Update := Update.new table

/-- One public configuration call on a `Delete` builder. -/
inductive DeleteOp where
  | filter (expr : String)
deriving DecidableEq

/-- One public configuration call on an `Insert` builder. -/
inductive InsertOp where
  | set (field value : String)
  | returning (field : String)
deriving DecidableEq

/-- One public configuration call on a `Select` builder. -/
inductive SelectOp where
  | alias (table a : String)
  | fields (fs : List String)
  | filter (expr : String)
  | group_by (val : String)
  | having (expr : String)
  | order_by (expr : String) (direction : Order)
  | join (table on_left on_right : String) (kind : Join)
  | limit (n : Nat)
  | offset (n : Nat)
deriving DecidableEq

/-- One public configuration call on an `Update` builder. -/
inductive UpdateOp where
  | set (field value : String)
  | returning (field : String)
  | filter (expr : String)
deriving DecidableEq

/-- Apply one `Delete` configuration call. -/
def applyDeleteOp (s : Delete) (op : DeleteOp) : Delete :=
  match op with
  | DeleteOp.filter e => s.filter e

/-- The `Delete` builder reached by a constructor call followed by a sequence
of configuration calls. -/
def Delete.run (table : String) (ops : List DeleteOp) : Delete :=
  ops.foldl applyDeleteOp (Delete.new table)

/-- Apply one `Insert` configuration call. -/
def applyInsertOp (s : Insert) (op : InsertOp) : Insert :=
  match op with
  | InsertOp.set f v => s.set f v
  | InsertOp.returning f => s.returning f

/-- The `Insert` builder reached by a constructor call followed by a sequence
of configuration calls. -/
def Insert.run (table : String) (ops : List InsertOp) : Insert :=
  ops.foldl applyInsertOp (Insert.new table)

/-- Apply one `Select` configuration call. -/
def applySelectOp (s : Select) (op : SelectOp) : Select :=
  match op with
  | SelectOp.alias t a => s.alias t a
  | SelectOp.fields fs => s.addFields fs
  | SelectOp.filter e => s.filter e
  | SelectOp.group_by v => s.group_by v
  | SelectOp.having e => s.having e
  | SelectOp.order_by e d => s.order_by e d
  | SelectOp.join t l r k => s.join t l r k
  | SelectOp.limit n => s.setLimit n
  | SelectOp.offset n => s.setOffset n

/-- The `Select` builder reached by a constructor call followed by a sequence
of configuration calls. -/
def Select.run (table : String) (ops : List SelectOp) : Select :=
  ops.foldl applySelectOp (Select.new table)

/-- Apply one `Update` configuration call. -/
def applyUpdateOp (s : Update) (op : UpdateOp) : Update :=
  match op with
  | UpdateOp.set f v => s.set f v
  | UpdateOp.returning f => s.returning f
  | UpdateOp.filter e => s.filter e

/-- The `Update` builder reached by a constructor call followed by a sequence
of configuration calls. -/
def Update.run (table : String) (ops : List UpdateOp) : Update :=
  ops.foldl applyUpdateOp (Update.new table)

/-! Specification-side rendering texts.  These follow the spec's clause-by-
clause description of the output (`spec.md` §4) and are compared against the
source-translated `build` functions above. -/

/-- Spec text of the SELECT field list: fields joined by `", "`, `*` when
absent. -/
def fieldsText : Option (List String) → String
  | some fs => sepConcat ", " fs
  | none => "*"

/-- Spec text of the optional ` AS <alias>` suffix for a table name. -/
def aliasText (aliases : Option (List (String × String))) (t : String) : String :=
  match aliases with
  | some m =>
    (match aListLookup m t with
     | some a => " AS " ++ a
     | none => "")
  | none => ""

/-- Spec text of the join section: each join clause rendered in call order,
concatenated directly. -/
def joinsText (aliases : Option (List (String × String))) : Option (List JoinClause) → String
  | some js => concatAll (js.map (renderJoinClause aliases))
  | none => ""

/-- Spec text of the optional WHERE clause: conditions joined by ` AND `. -/
def whereText : Option (List String) → String
  | some cs => " WHERE " ++ sepConcat " AND " cs
  | none => ""

/-- Spec text of the optional GROUP BY clause. -/
def groupText : Option (List String) → String
  | some gs => " GROUP BY " ++ sepConcat ", " gs
  | none => ""

/-- Spec text of the optional HAVING clause. -/
def havingText : Option (List String) → String
  | some hs => " HAVING " ++ sepConcat " AND " hs
  | none => ""

/-- Spec text of the optional ORDER BY clause: the items rendered in call
order with no separator between successive items. -/
def orderText : Option (List (String × Order)) → String
  | some os => " ORDER BY " ++ concatAll (os.map renderOrderItem)
  | none => ""

/-- Spec text of the optional LIMIT clause (0 is the "unset" sentinel). -/
def limitText (n : Nat) : String :=
  if n ≠ 0 then " LIMIT " ++ toString n else ""

/-- Spec text of the optional OFFSET clause (0 is the "unset" sentinel). -/
def offsetText (n : Nat) : String :=
  if n ≠ 0 then " OFFSET " ++ toString n else ""

/-- Spec text of the optional RETURNING clause. -/
def returningText : Option (List String) → String
  | some rs => " RETURNING " ++ sepConcat ", " rs
  | none => ""

/-- Spec text of a full SELECT statement up to (and excluding) the LIMIT
clause. -/
def selectCoreText (s : Select) : String :=
  "SELECT " ++ fieldsText s.fields ++ " FROM " ++ s.table ++ aliasText s.aliases s.table
    ++ joinsText s.aliases s.joins ++ whereText s.conditions ++ groupText s.groupings
    ++ havingText s.havings ++ orderText s.order

/-- Spec text of a full SELECT statement, clauses in the fixed order of
`spec.md` §4.5. -/
def selectText (s : Select) : String :=
  selectCoreText s ++ limitText s.limit ++ offsetText s.offset ++ ";"

/-- Append newly collected items to an optional collection: the effect of one
configuration call that appends `l` (lazily initializing the collection when
`l` arrives non-trivially). -/
def optAppend {α : Type} (o : Option (List α)) : List α → Option (List α)
  | [] => o
  | l => some (o.getD [] ++ l)

/-- `optOf l` is `none` for the empty list and `some l` otherwise: the
optional collection reached from `none` after appending exactly `l`. -/
def optOf {α : Type} : List α → Option (List α)
  | [] => none
  | l => some l

/-- All items contributed by a sequence of calls, per-call contribution `g`,
in call order. -/
def collect {Op α : Type} (g : Op → List α) : List Op → List α
  | [] => []
  | op :: ops => g op ++ collect g ops

/-- The WHERE conditions contributed by a sequence of `Delete` calls. -/
def deleteFilters : List DeleteOp → List String :=
  collect (fun op => match op with
    | DeleteOp.filter e => [e])

/-- The WHERE conditions contributed by a sequence of `Select` calls. -/
def selectFilters : List SelectOp → List String :=
  collect (fun op => match op with
    | SelectOp.filter e => [e]
    | _ => [])

/-- The order pairs contributed by a sequence of `Select` calls, in call
order. -/
def orderPairs : List SelectOp → List (String × Order) :=
  collect (fun op => match op with
    | SelectOp.order_by e d => [(e, d)]
    | _ => [])

/-- The WHERE conditions contributed by a sequence of `Update` calls. -/
def updateFilters : List UpdateOp → List String :=
  collect (fun op => match op with
    | UpdateOp.filter e => [e]
    | _ => [])

/-- The value written last for field `f` by a sequence of `Insert` calls
(last write wins). -/
def lastSetI (ops : List InsertOp) (f : String) : Option String :=
  match ops with
  | [] => none
  | op :: rest =>
    match lastSetI rest f with
    | some v => some v
    | none =>
      match op with
      | InsertOp.set f2 v => if f2 = f then some v else none
      | _ => none

/-- The never-empty-once-initialized invariant for every optional collection
of a `Select` builder. -/
def SelectInv (s : Select) : Prop :=
  s.aliases ≠ some [] ∧ s.fields ≠ some [] ∧ s.order ≠ some [] ∧ s.joins ≠ some []
    ∧ s.groupings ≠ some [] ∧ s.havings ≠ some [] ∧ s.conditions ≠ some []

/-! Concrete call sequences used as witnesses. -/

/-- A `Select` exercising every clause kind. -/
def selectSampleOps : List SelectOp :=
  [SelectOp.fields ["id", "name"], SelectOp.alias "posts" "p",
   SelectOp.join "posts" "p.user_id" "users.id" Join.Left,
   SelectOp.filter "name = $1", SelectOp.group_by "name", SelectOp.having "max > 100",
   SelectOp.order_by "id" Order.Asc, SelectOp.limit 15, SelectOp.offset 30]

/-- An `Update` exercising set (twice), and filter. -/
def updateSampleOps : List UpdateOp :=
  [UpdateOp.set "karma" "0", UpdateOp.set "last_login" "1970-01-01",
   UpdateOp.filter "name = $1"]

/-- A `Select` with two order keys (exposing the missing separator). -/
def orderSampleOps : List SelectOp :=
  [SelectOp.fields ["id", "name"], SelectOp.order_by "id" Order.Asc,
   SelectOp.order_by "name" Order.Desc]

/-- An `Insert` overwriting a field (last write wins). -/
def insertSampleOps : List InsertOp :=
  [InsertOp.set "name" "$1", InsertOp.set "karma" "$2", InsertOp.set "name" "$3",
   InsertOp.returning "id"]

/-- A `Delete` with two filters. -/
def deleteSampleOps : List DeleteOp :=
  [DeleteOp.filter "name = $1", DeleteOp.filter "karma <= $2"]

/-- A `Select` with both limit and offset set. -/
def limitSampleOps : List SelectOp :=
  [SelectOp.fields ["id", "name"], SelectOp.limit 15, SelectOp.offset 30]

/-- The fully configured sample `Select` builder. -/
def selectSample : Select := Select.run "users" selectSampleOps

/-! Basic lemmas about the rendering helpers. -/

theorem fieldsSeg_eq_some (o : Option (List String)) (h : o ≠ some []) :
    fieldsSeg o = some (fieldsText o) := by
  match o with
  | none => rfl
  | some [] => exact absurd rfl h
  | some (x :: xs) => rfl

theorem whereSeg_eq_some (o : Option (List String)) (h : o ≠ some []) :
    whereSeg o = some (whereText o) := by
  match o with
  | none => rfl
  | some [] => exact absurd rfl h
  | some (x :: xs) => rfl

theorem groupSeg_eq_some (o : Option (List String)) (h : o ≠ some []) :
    groupSeg o = some (groupText o) := by
  match o with
  | none => rfl
  | some [] => exact absurd rfl h
  | some (x :: xs) => rfl

theorem havingSeg_eq_some (o : Option (List String)) (h : o ≠ some []) :
    havingSeg o = some (havingText o) := by
  match o with
  | none => rfl
  | some [] => exact absurd rfl h
  | some (x :: xs) => rfl

theorem returningSeg_eq_some (o : Option (List String)) (h : o ≠ some []) :
    returningSeg o = some (returningText o) := by
  match o with
  | none => rfl
  | some [] => exact absurd rfl h
  | some (x :: xs) => rfl

theorem foldl_append_concatAll {α : Type} (f : α → String) :
    ∀ (l : List α) (q : String),
      List.foldl (fun q x => q ++ f x) q l = q ++ concatAll (l.map f)
  | [], q => by simp [concatAll, String.append_empty]
  | x :: xs, q => by
    rw [List.map_cons, List.foldl_cons, foldl_append_concatAll f xs, concatAll,
      ← String.append_assoc]

/-! Shape of each `build` result. -/

theorem delete_build_eq (d : Delete) (hc : d.conditions ≠ some []) :
    d.build = some ("DELETE FROM " ++ d.table ++ whereText d.conditions ++ ";") := by
  unfold Delete.build
  rw [whereSeg_eq_some _ hc]

theorem Delete.build_empty_conditions (d : Delete) (h : d.conditions = some []) :
    d.build = none := by
  unfold Delete.build
  rw [h]
  rfl

theorem insert_build_eq (i : Insert) (hv : i.values ≠ []) (hr : i.returns ≠ some []) :
    i.build = some ("INSERT INTO " ++ i.table ++ " (" ++ sepConcat ", " (i.values.map Prod.fst)
      ++ ") VALUES (" ++ sepConcat ", " (i.values.map Prod.snd) ++ ")"
      ++ returningText i.returns ++ ";") := by
  obtain ⟨tb, vals, rets⟩ := i
  rcases vals with _ | ⟨⟨f, v⟩, rest⟩
  · exact absurd rfl hv
  · unfold Insert.build
    rw [returningSeg_eq_some _ hr]
    rfl

theorem Insert.build_empty_values (i : Insert) (hv : i.values = []) :
    i.build = none := by
  obtain ⟨tb, vals, rets⟩ := i
  subst hv
  rfl

theorem update_build_eq (u : Update) (hc : u.conditions ≠ some []) (hr : u.returns ≠ some []) :
    u.build = some ("UPDATE " ++ u.table ++ " SET "
      ++ sepConcat " AND " (u.values.map (fun p => p.1 ++ " = " ++ p.2))
      ++ whereText u.conditions ++ returningText u.returns ++ ";") := by
  unfold Update.build
  rw [whereSeg_eq_some _ hc, returningSeg_eq_some _ hr]

theorem select_build_eq (s : Select) (hf : s.fields ≠ some []) (hc : s.conditions ≠ some [])
    (hg : s.groupings ≠ some []) (hh : s.havings ≠ some []) :
    s.build = some (selectText s) := by
  obtain ⟨tb, al, fl, od, jn, gp, hv, cd, li, ofs⟩ := s
  simp only at hf hc hg hh
  unfold Select.build
  rw [fieldsSeg_eq_some _ hf, whereSeg_eq_some _ hc, groupSeg_eq_some _ hg,
    havingSeg_eq_some _ hh]
  simp only [selectText, selectCoreText, limitText, offsetText]
  cases jn <;> cases od <;> split_ifs <;>
    simp [joinsText, orderText, aliasText, foldl_append_concatAll,
      String.append_assoc, String.append_empty, String.empty_append]

theorem Select.build_of_empty (s : Select)
    (h : s.fields = some [] ∨ s.conditions = some [] ∨ s.groupings = some []
      ∨ s.havings = some []) :
    s.build = none := by
  unfold Select.build
  rcases h with h | h | h | h <;> rw [h] <;> split <;>
    simp_all [fieldsSeg, whereSeg, groupSeg, havingSeg, query_builder.join]

theorem Select.build_some_spec (s : Select) (q : String) (h : s.build = some q) :
    s.fields ≠ some [] ∧ s.conditions ≠ some [] ∧ s.groupings ≠ some []
      ∧ s.havings ≠ some [] ∧ q = selectText s := by
  have hf : s.fields ≠ some [] := fun he => by
    rw [Select.build_of_empty s (Or.inl he)] at h
    exact Option.noConfusion h
  have hc : s.conditions ≠ some [] := fun he => by
    rw [Select.build_of_empty s (Or.inr (Or.inl he))] at h
    exact Option.noConfusion h
  have hg : s.groupings ≠ some [] := fun he => by
    rw [Select.build_of_empty s (Or.inr (Or.inr (Or.inl he)))] at h
    exact Option.noConfusion h
  have hh : s.havings ≠ some [] := fun he => by
    rw [Select.build_of_empty s (Or.inr (Or.inr (Or.inr he)))] at h
    exact Option.noConfusion h
  refine ⟨hf, hc, hg, hh, ?_⟩
  have h2 := select_build_eq s hf hc hg hh
  rw [h2] at h
  exact (Option.some_inj.mp h).symm

/-! Characterization of the collections reached by call sequences. -/

theorem optAppend_optAppend {α : Type} (o : Option (List α)) (l1 l2 : List α) :
    optAppend (optAppend o l1) l2 = optAppend o (l1 ++ l2) := by
  cases l1 <;> cases l2 <;> simp [optAppend, List.append_assoc]

theorem optAppend_none {α : Type} (l : List α) : optAppend none l = optOf l := by
  cases l <;> simp [optAppend, optOf]

theorem optOf_ne_some_nil {α : Type} (l : List α) : optOf l ≠ some [] := by
  cases l <;> simp [optOf]

theorem some_ne_some_nil {α : Type} {l : List α} (h : l ≠ []) :
    (some l : Option (List α)) ≠ some [] :=
  fun hc => h (Option.some_inj.mp hc)

theorem foldl_optAppend {σ Op α : Type} (apply : σ → Op → σ) (fld : σ → Option (List α))
    (g : Op → List α) (h : ∀ s op, fld (apply s op) = optAppend (fld s) (g op)) :
    ∀ (ops : List Op) (s : σ),
      fld (List.foldl apply s ops) = optAppend (fld s) (collect g ops)
  | [], s => by simp [collect, optAppend]
  | op :: ops, s => by
    rw [List.foldl_cons, foldl_optAppend apply fld g h ops, h, optAppend_optAppend, collect]

theorem applyDeleteOp_conditions (s : Delete) (op : DeleteOp) :
    (applyDeleteOp s op).conditions
      = optAppend s.conditions (match op with | DeleteOp.filter e => [e]) := by
  cases op <;> rfl

theorem applySelectOp_conditions (s : Select) (op : SelectOp) :
    (applySelectOp s op).conditions
      = optAppend s.conditions
          (match op with
           | SelectOp.filter e => [e]
           | _ => []) := by
  cases op <;> rfl

theorem applySelectOp_order (s : Select) (op : SelectOp) :
    (applySelectOp s op).order
      = optAppend s.order
          (match op with
           | SelectOp.order_by e d => [(e, d)]
           | _ => []) := by
  cases op <;> rfl

theorem applyUpdateOp_conditions (s : Update) (op : UpdateOp) :
    (applyUpdateOp s op).conditions
      = optAppend s.conditions
          (match op with
           | UpdateOp.filter e => [e]
           | _ => []) := by
  cases op <;> rfl

theorem delete_run_conditions (t : String) (ops : List DeleteOp) :
    (Delete.run t ops).conditions = optOf (deleteFilters ops) := by
  have h := foldl_optAppend applyDeleteOp (fun d => d.conditions)
    (fun op => match op with | DeleteOp.filter e => [e])
    applyDeleteOp_conditions ops (Delete.new t)
  exact h.trans (optAppend_none _)

theorem select_run_conditions (t : String) (ops : List SelectOp) :
    (Select.run t ops).conditions = optOf (selectFilters ops) := by
  have h := foldl_optAppend applySelectOp (fun s => s.conditions)
    (fun op => match op with
     | SelectOp.filter e => [e]
     | _ => [])
    applySelectOp_conditions ops (Select.new t)
  exact h.trans (optAppend_none _)

theorem select_run_order (t : String) (ops : List SelectOp) :
    (Select.run t ops).order = optOf (orderPairs ops) := by
  have h := foldl_optAppend applySelectOp (fun s => s.order)
    (fun op => match op with
     | SelectOp.order_by e d => [(e, d)]
     | _ => [])
    applySelectOp_order ops (Select.new t)
  exact h.trans (optAppend_none _)

theorem update_run_conditions (t : String) (ops : List UpdateOp) :
    (Update.run t ops).conditions = optOf (updateFilters ops) := by
  have h := foldl_optAppend applyUpdateOp (fun u => u.conditions)
    (fun op => match op with
     | UpdateOp.filter e => [e]
     | _ => [])
    applyUpdateOp_conditions ops (Update.new t)
  exact h.trans (optAppend_none _)

/-! The table name is never changed by configuration calls. -/

theorem applyDeleteOp_table (s : Delete) (op : DeleteOp) :
    (applyDeleteOp s op).table = s.table := by
  cases op <;> rfl

theorem delete_run_table (t : String) (ops : List DeleteOp) :
    (Delete.run t ops).table = t := by
  suffices h : ∀ s : Delete, (List.foldl applyDeleteOp s ops).table = s.table from
    h (Delete.new t)
  intro s
  induction ops generalizing s with
  | nil => rfl
  | cons op ops ih => rw [List.foldl_cons, ih, applyDeleteOp_table]

theorem applyInsertOp_table (s : Insert) (op : InsertOp) :
    (applyInsertOp s op).table = s.table := by
  cases op <;> rfl

theorem insert_run_table (t : String) (ops : List InsertOp) :
    (Insert.run t ops).table = t := by
  suffices h : ∀ s : Insert, (List.foldl applyInsertOp s ops).table = s.table from
    h (Insert.new t)
  intro s
  induction ops generalizing s with
  | nil => rfl
  | cons op ops ih => rw [List.foldl_cons, ih, applyInsertOp_table]

theorem applySelectOp_table (s : Select) (op : SelectOp) :
    (applySelectOp s op).table = s.table := by
  cases op <;> rfl

theorem select_run_table (t : String) (ops : List SelectOp) :
    (Select.run t ops).table = t := by
  suffices h : ∀ s : Select, (List.foldl applySelectOp s ops).table = s.table from
    h (Select.new t)
  intro s
  induction ops generalizing s with
  | nil => rfl
  | cons op ops ih => rw [List.foldl_cons, ih, applySelectOp_table]

theorem applyUpdateOp_table (s : Update) (op : UpdateOp) :
    (applyUpdateOp s op).table = s.table := by
  cases op <;> rfl

theorem update_run_table (t : String) (ops : List UpdateOp) :
    (Update.run t ops).table = t := by
  suffices h : ∀ s : Update, (List.foldl applyUpdateOp s ops).table = s.table from
    h (Update.new t)
  intro s
  induction ops generalizing s with
  | nil => rfl
  | cons op ops ih => rw [List.foldl_cons, ih, applyUpdateOp_table]

/-! Never-empty-once-initialized invariants for reachable builders. -/

theorem mapInsert_ne_nil (m : List (String × String)) (k v : String) :
    mapInsert m k v ≠ [] := by
  cases m with
  | nil => simp [mapInsert]
  | cons p rest =>
    rcases p with ⟨k2, v2⟩
    simp only [mapInsert]
    split <;> simp

theorem delete_run_conditions_ne (t : String) (ops : List DeleteOp) :
    (Delete.run t ops).conditions ≠ some [] := by
  rw [delete_run_conditions]
  exact optOf_ne_some_nil _

theorem Insert.run_returns_ne (t : String) (ops : List InsertOp) :
    (Insert.run t ops).returns ≠ some [] := by
  suffices h : ∀ s : Insert, s.returns ≠ some [] →
      (List.foldl applyInsertOp s ops).returns ≠ some [] from
    h (Insert.new t) (by simp [Insert.new])
  intro s
  induction ops generalizing s with
  | nil => exact fun h => h
  | cons op ops ih =>
    intro h
    rw [List.foldl_cons]
    refine ih _ ?_
    cases op with
    | set f v => exact h
    | returning f => exact some_ne_some_nil (by simp)

theorem Insert.run_values_ne (t : String) (ops : List InsertOp)
    (h : ∃ f v, InsertOp.set f v ∈ ops) :
    (Insert.run t ops).values ≠ [] := by
  suffices hs : ∀ (ops2 : List InsertOp) (s : Insert),
      ((∃ f v, InsertOp.set f v ∈ ops2) ∨ s.values ≠ []) →
      (List.foldl applyInsertOp s ops2).values ≠ [] from
    hs ops (Insert.new t) (Or.inl h)
  intro ops2
  induction ops2 with
  | nil =>
    intro s hd
    rcases hd with ⟨f, v, hmem⟩ | hne
    · exact absurd hmem (List.not_mem_nil _)
    · exact hne
  | cons op ops2 ih =>
    intro s hd
    rw [List.foldl_cons]
    rcases hd with ⟨f, v, hmem⟩ | hne
    · rcases List.mem_cons.mp hmem with heq | hmem2
      · subst heq
        exact ih (applyInsertOp s (InsertOp.set f v)) (Or.inr (mapInsert_ne_nil s.values f v))
      · exact ih _ (Or.inl ⟨f, v, hmem2⟩)
    · refine ih _ (Or.inr ?_)
      cases op with
      | set f v => exact mapInsert_ne_nil _ _ _
      | returning f => exact hne

theorem select_run_inv (t : String) (ops : List SelectOp)
    (hfs : ∀ fs, SelectOp.fields fs ∈ ops → fs ≠ []) :
    SelectInv (Select.run t ops) := by
  suffices hs : ∀ (ops2 : List SelectOp) (s : Select),
      (∀ fs, SelectOp.fields fs ∈ ops2 → fs ≠ []) → SelectInv s →
      SelectInv (List.foldl applySelectOp s ops2) from
    hs ops (Select.new t) hfs (by simp [SelectInv, Select.new])
  intro ops2
  induction ops2 with
  | nil => exact fun s _ hinv => hinv
  | cons op ops2 ih =>
    intro s hops hinv
    rw [List.foldl_cons]
    refine ih _ (fun fs hmem => hops fs (List.mem_cons_of_mem _ hmem)) ?_
    obtain ⟨h1, h2, h3, h4, h5, h6, h7⟩ := hinv
    cases op with
    | «alias» t2 a => exact ⟨some_ne_some_nil (mapInsert_ne_nil _ _ _), h2, h3, h4, h5, h6, h7⟩
    | fields fs =>
      refine ⟨h1, some_ne_some_nil ?_, h3, h4, h5, h6, h7⟩
      have hne : fs ≠ [] := hops fs (List.mem_cons_self _ _)
      intro hc
      exact hne (List.append_eq_nil.mp hc).2
    | filter e => exact ⟨h1, h2, h3, h4, h5, h6, some_ne_some_nil (by simp)⟩
    | group_by v => exact ⟨h1, h2, h3, h4, some_ne_some_nil (by simp), h6, h7⟩
    | having e => exact ⟨h1, h2, h3, h4, h5, some_ne_some_nil (by simp), h7⟩
    | order_by e d => exact ⟨h1, h2, some_ne_some_nil (by simp), h4, h5, h6, h7⟩
    | join t2 l r k => exact ⟨h1, h2, h3, some_ne_some_nil (by simp), h5, h6, h7⟩
    | limit n => exact ⟨h1, h2, h3, h4, h5, h6, h7⟩
    | offset n => exact ⟨h1, h2, h3, h4, h5, h6, h7⟩

theorem update_run_inv (t : String) (ops : List UpdateOp) :
    (Update.run t ops).conditions ≠ some [] ∧ (Update.run t ops).returns ≠ some [] := by
  suffices hs : ∀ s : Update, s.conditions ≠ some [] → s.returns ≠ some [] →
      (List.foldl applyUpdateOp s ops).conditions ≠ some []
        ∧ (List.foldl applyUpdateOp s ops).returns ≠ some [] from
    hs (Update.new t) (by simp [Update.new]) (by simp [Update.new])
  intro s
  induction ops generalizing s with
  | nil => exact fun hc hr => ⟨hc, hr⟩
  | cons op ops ih =>
    intro hc hr
    rw [List.foldl_cons]
    cases op with
    | set f v => exact ih _ hc hr
    | returning f => exact ih _ hc (some_ne_some_nil (by simp))
    | filter e => exact ih _ (some_ne_some_nil (by simp)) hr

/-! Lookup behaviour of the association-list model of the hash map. -/

theorem aListLookup_mapInsert (m : List (String × String)) (k v g : String) :
    aListLookup (mapInsert m k v) g = if k = g then some v else aListLookup m g := by
  induction m with
  | nil => simp [mapInsert, aListLookup]
  | cons p rest ih =>
    rcases p with ⟨k2, v2⟩
    by_cases hk : k2 = k
    · subst hk
      have hm : mapInsert ((k2, v2) :: rest) k2 v = (k2, v) :: rest := by
        simp [mapInsert]
      rw [hm]
      by_cases hg : k2 = g <;> simp [aListLookup, hg]
    · have hm : mapInsert ((k2, v2) :: rest) k v = (k2, v2) :: mapInsert rest k v := by
        simp [mapInsert, hk]
      rw [hm]
      by_cases hg : k2 = g
      · have hkg : ¬k = g := fun hc => hk (hg.trans hc.symm)
        simp [aListLookup, hg, hkg]
      · simp [aListLookup, hg, ih]

theorem mem_keys_mapInsert (k v x : String) :
    ∀ m : List (String × String),
      (x ∈ (mapInsert m k v).map Prod.fst ↔ x ∈ m.map Prod.fst ∨ x = k)
  | [] => by simp [mapInsert]
  | (k2, v2) :: rest => by
    by_cases hk : k2 = k
    · subst hk
      simp only [mapInsert, if_pos rfl]
      simp [or_comm, or_left_comm]
    · simp only [mapInsert, if_neg hk]
      simp [mem_keys_mapInsert k v x rest, or_assoc]

theorem mapInsert_keys_nodup (m : List (String × String)) (k v : String)
    (h : (m.map Prod.fst).Nodup) : ((mapInsert m k v).map Prod.fst).Nodup := by
  induction m with
  | nil => simp [mapInsert]
  | cons p rest ih =>
    rcases p with ⟨k2, v2⟩
    rw [List.map_cons, List.nodup_cons] at h
    obtain ⟨hk2, hrest⟩ := h
    by_cases hk : k2 = k
    · subst hk
      have hm : mapInsert ((k2, v2) :: rest) k2 v = (k2, v) :: rest := by
        simp [mapInsert]
      rw [hm, List.map_cons, List.nodup_cons]
      exact ⟨hk2, hrest⟩
    · have hm : mapInsert ((k2, v2) :: rest) k v = (k2, v2) :: mapInsert rest k v := by
        simp [mapInsert, hk]
      rw [hm, List.map_cons, List.nodup_cons]
      refine ⟨?_, ih hrest⟩
      intro hc
      rcases (mem_keys_mapInsert k v k2 rest).mp hc with hmem | heq
      · exact hk2 hmem
      · exact hk heq

theorem mem_iff_aListLookup (f v : String) :
    ∀ m : List (String × String), (m.map Prod.fst).Nodup →
      ((f, v) ∈ m ↔ aListLookup m f = some v)
  | [], _ => by simp [aListLookup]
  | (k2, v2) :: rest, hnd => by
    rw [List.map_cons, List.nodup_cons] at hnd
    obtain ⟨hk2, hrest⟩ := hnd
    by_cases hf : k2 = f
    · subst hf
      have hl : aListLookup ((k2, v2) :: rest) k2 = some v2 := by
        simp [aListLookup]
      rw [hl, List.mem_cons]
      constructor
      · rintro (heq | hmem)
        · rw [Prod.mk.injEq] at heq
          rw [heq.2]
        · exact absurd (List.mem_map_of_mem Prod.fst hmem) hk2
      · intro hsome
        exact Or.inl (by rw [Option.some_inj.mp hsome])
    · have hl : aListLookup ((k2, v2) :: rest) f = aListLookup rest f := by
        simp [aListLookup, hf]
      rw [hl, List.mem_cons, ← mem_iff_aListLookup f v rest hrest]
      constructor
      · rintro (heq | hmem)
        · rw [Prod.mk.injEq] at heq
          exact absurd heq.1.symm hf
        · exact hmem
      · exact Or.inr

theorem Insert.run_keys_nodup (t : String) (ops : List InsertOp) :
    ((Insert.run t ops).values.map Prod.fst).Nodup := by
  suffices hs : ∀ (ops2 : List InsertOp) (s : Insert), (s.values.map Prod.fst).Nodup →
      ((List.foldl applyInsertOp s ops2).values.map Prod.fst).Nodup from
    hs ops (Insert.new t) (by simp [Insert.new])
  intro ops2
  induction ops2 with
  | nil => exact fun s h => h
  | cons op ops2 ih =>
    intro s h
    rw [List.foldl_cons]
    refine ih _ ?_
    cases op with
    | set f v => exact mapInsert_keys_nodup _ _ _ h
    | returning f => exact h

theorem Insert.run_lookup (t : String) (ops : List InsertOp) (f : String) :
    aListLookup (Insert.run t ops).values f = lastSetI ops f := by
  suffices hs : ∀ (ops2 : List InsertOp) (s : Insert),
      aListLookup (List.foldl applyInsertOp s ops2).values f
        = (match lastSetI ops2 f with
           | some v => some v
           | none => aListLookup s.values f) by
    have h := hs ops (Insert.new t)
    cases hl : lastSetI ops f <;> simp [hl, Insert.new, aListLookup] at h ⊢ <;> exact h
  intro ops2
  induction ops2 with
  | nil => exact fun s => rfl
  | cons op ops2 ih =>
    intro s
    rw [List.foldl_cons, ih]
    cases op with
    | set f2 v =>
      have happ : (applyInsertOp s (InsertOp.set f2 v)).values = mapInsert s.values f2 v := rfl
      rw [happ]  -- no-op up to defeq, keeps the shape explicit
      cases hl : lastSetI ops2 f
      · simp only [lastSetI, hl, aListLookup_mapInsert]
        by_cases hf : f2 = f <;> simp [hf]
      · simp only [lastSetI, hl]
    | returning f2 =>
      cases hl : lastSetI ops2 f
      · simp only [lastSetI, hl]
        rfl
      · simp only [lastSetI, hl]

theorem zip_map_fst_snd_self {α β : Type} :
    ∀ l : List (α × β), (l.map Prod.fst).zip (l.map Prod.snd) = l
  | [] => rfl
  | (a, b) :: rest => by
    rw [List.map_cons, List.map_cons, List.zip_cons_cons, zip_map_fst_snd_self rest]

/-! The claims. -/

/-- C1: for every Select builder, `build()` renders its configured clauses in
the strict fixed order: SELECT fields (or `*` when fields absent), then FROM
table with optional AS alias, then each join in call order, then WHERE, then
GROUP BY, then HAVING, then ORDER BY, then LIMIT, then OFFSET, then the
terminal `;`; in particular joins appear after FROM and before WHERE, and
GROUP BY/HAVING appear after WHERE and before ORDER BY. -/
theorem select_build_clause_order (s : Select) (q : String) (h : s.build = some q) :
    q = "SELECT " ++ fieldsText s.fields ++ " FROM " ++ s.table
      ++ aliasText s.aliases s.table ++ joinsText s.aliases s.joins
      ++ whereText s.conditions ++ groupText s.groupings ++ havingText s.havings
      ++ orderText s.order ++ limitText s.limit ++ offsetText s.offset ++ ";" :=
  (Select.build_some_spec s q h).2.2.2.2

/-- Witness for C1 at a Select with every clause configured. -/
theorem select_build_clause_order_witness :
    selectSample.build
      = some "SELECT id, name FROM users LEFT JOIN posts AS p ON p.user_id = users.id WHERE name = $1 GROUP BY name HAVING max > 100 ORDER BY id ASC LIMIT 15 OFFSET 30;"
    ∧ "SELECT id, name FROM users LEFT JOIN posts AS p ON p.user_id = users.id WHERE name = $1 GROUP BY name HAVING max > 100 ORDER BY id ASC LIMIT 15 OFFSET 30;"
      = "SELECT " ++ fieldsText selectSample.fields ++ " FROM " ++ selectSample.table
        ++ aliasText selectSample.aliases selectSample.table
        ++ joinsText selectSample.aliases selectSample.joins
        ++ whereText selectSample.conditions ++ groupText selectSample.groupings
        ++ havingText selectSample.havings ++ orderText selectSample.order
        ++ limitText selectSample.limit ++ offsetText selectSample.offset ++ ";" :=
  ⟨by rfl, select_build_clause_order selectSample _ (by rfl)⟩

/-- C2: for every Update builder on which `set` has been called at least once,
`build()` renders `UPDATE <table> SET ` followed by the assignments
`<field> = <value>` joined by the literal token ` AND ` (not a comma), then
the optional WHERE and RETURNING clauses, then `;`. -/
theorem update_build_set_and (t : String) (ops : List UpdateOp)
    (hset : ∃ f v, UpdateOp.set f v ∈ ops) :
    (Update.run t ops).build
      = some ("UPDATE " ++ t ++ " SET "
          ++ sepConcat " AND " ((Update.run t ops).values.map (fun p => p.1 ++ " = " ++ p.2))
          ++ whereText (Update.run t ops).conditions
          ++ returningText (Update.run t ops).returns ++ ";") := by
  obtain ⟨hc, hr⟩ := update_run_inv t ops
  have h := update_build_eq (Update.run t ops) hc hr
  rw [h, update_run_table]

/-- Witness for C2: two assignments joined by ` AND `, then a WHERE clause. -/
theorem update_build_set_and_witness :
    (Update.run "users" updateSampleOps).build
      = some "UPDATE users SET karma = 0 AND last_login = 1970-01-01 WHERE name = $1;" := by
  have h := update_build_set_and "users" updateSampleOps ⟨"karma", "0", by decide⟩
  rw [h]
  rfl

/-- C3: for every Select builder with a non-empty order list built by
`order_by` calls, `build()` renders ` ORDER BY ` followed by, for each
`(expr, direction)` pair in call order, `<expr> ASC` or `<expr> DESC`
concatenated directly adjacent, with no separator between successive order
items. -/
theorem select_order_no_separator (t : String) (ops : List SelectOp) (q : String)
    (hne : orderPairs ops ≠ []) (hq : (Select.run t ops).build = some q) :
    (Select.run t ops).order = some (orderPairs ops)
    ∧ q = "SELECT " ++ fieldsText (Select.run t ops).fields ++ " FROM " ++ t
        ++ aliasText (Select.run t ops).aliases t
        ++ joinsText (Select.run t ops).aliases (Select.run t ops).joins
        ++ whereText (Select.run t ops).conditions
        ++ groupText (Select.run t ops).groupings ++ havingText (Select.run t ops).havings
        ++ (" ORDER BY " ++ concatAll ((orderPairs ops).map renderOrderItem))
        ++ limitText (Select.run t ops).limit ++ offsetText (Select.run t ops).offset
        ++ ";" := by
  have horder : (Select.run t ops).order = some (orderPairs ops) := by
    rw [select_run_order]
    rcases hop : orderPairs ops with _ | ⟨p, ps⟩
    · exact absurd hop hne
    · rfl
  refine ⟨horder, ?_⟩
  have hspec := (Select.build_some_spec _ q hq).2.2.2.2
  rw [hspec]
  simp only [selectText, selectCoreText]
  rw [select_run_table, horder]
  rfl

/-- Witness for C3: two order keys collapse together with no separator. -/
theorem select_order_no_separator_witness :
    (Select.run "users" orderSampleOps).build
        = some "SELECT id, name FROM users ORDER BY id ASCname DESC;"
    ∧ (Select.run "users" orderSampleOps).order = some (orderPairs orderSampleOps) :=
  ⟨by rfl,
   (select_order_no_separator "users" orderSampleOps _ (by decide) (by rfl)).1⟩

/-- C4 counterexample: the claim that the shared join helper is never invoked
on an empty sequence for every call sequence is false — building a fresh
Insert with no `set` call reaches `join` on the empty column list, whose
length-minus-one underflow is modelled by the `none` result. -/
theorem insert_new_build_fails : (Insert.new "users").build = none := rfl

/-- C4 amended: the empty-sequence failure of the shared join helper is
unreachable for every Delete and Update call sequence, for every Insert call
sequence containing at least one `set`, and for every Select call sequence in
which every `fields` call passes a non-empty list (without those provisos it
is reachable, e.g. by `insert(t).build()` or `select(t).fields([]).build()`). -/
theorem join_empty_unreachable_amended (t : String) (dops : List DeleteOp)
    (iops : List InsertOp) (sops : List SelectOp) (uops : List UpdateOp)
    (hset : ∃ f v, InsertOp.set f v ∈ iops)
    (hfs : ∀ fs, SelectOp.fields fs ∈ sops → fs ≠ []) :
    (Delete.run t dops).build.isSome ∧ (Insert.run t iops).build.isSome
      ∧ (Select.run t sops).build.isSome ∧ (Update.run t uops).build.isSome := by
  refine ⟨?_, ?_, ?_, ?_⟩
  · rw [delete_build_eq _ (delete_run_conditions_ne t dops)]
    rfl
  · rw [insert_build_eq _ (Insert.run_values_ne t iops hset) (Insert.run_returns_ne t iops)]
    rfl
  · obtain ⟨h1, h2, h3, h4, h5, h6, h7⟩ := select_run_inv t sops hfs
    rw [select_build_eq _ h2 h7 h5 h6]
    rfl
  · obtain ⟨hc, hr⟩ := update_run_inv t uops
    rw [update_build_eq _ hc hr]
    rfl

/-- Witness for the amended C4 at concrete call sequences of all four
builders. -/
theorem join_empty_unreachable_amended_witness :
    (Delete.run "users" deleteSampleOps).build.isSome
      ∧ (Insert.run "users" insertSampleOps).build.isSome
      ∧ (Select.run "users" selectSampleOps).build.isSome
      ∧ (Update.run "users" updateSampleOps).build.isSome :=
  join_empty_unreachable_amended "users" deleteSampleOps insertSampleOps selectSampleOps
    updateSampleOps ⟨"name", "$1", by decide⟩
    (by
      intro fs hmem
      simp [selectSampleOps] at hmem
      subst hmem
      decide)

/-- C5: for every Delete, Select or Update builder, repeated `filter` calls
accumulate conditions in call order; when at least one condition is present
`build()` renders exactly ` WHERE c1 AND c2 AND ...`, and when `filter` was
never called no WHERE clause (the empty where text) is rendered. -/
theorem filter_where_rendering (t : String) (dops : List DeleteOp) (sops : List SelectOp)
    (uops : List UpdateOp) :
    (Delete.run t dops).build
        = some ("DELETE FROM " ++ t ++ whereText (optOf (deleteFilters dops)) ++ ";")
    ∧ (Select.run t sops).conditions = optOf (selectFilters sops)
    ∧ (∀ q, (Select.run t sops).build = some q →
        q = "SELECT " ++ fieldsText (Select.run t sops).fields ++ " FROM " ++ t
          ++ aliasText (Select.run t sops).aliases t
          ++ joinsText (Select.run t sops).aliases (Select.run t sops).joins
          ++ whereText (optOf (selectFilters sops))
          ++ groupText (Select.run t sops).groupings ++ havingText (Select.run t sops).havings
          ++ orderText (Select.run t sops).order ++ limitText (Select.run t sops).limit
          ++ offsetText (Select.run t sops).offset ++ ";")
    ∧ (Update.run t uops).build
        = some ("UPDATE " ++ t ++ " SET "
            ++ sepConcat " AND " ((Update.run t uops).values.map (fun p => p.1 ++ " = " ++ p.2))
            ++ whereText (optOf (updateFilters uops))
            ++ returningText (Update.run t uops).returns ++ ";") := by
  refine ⟨?_, select_run_conditions t sops, ?_, ?_⟩
  · rw [delete_build_eq _ (delete_run_conditions_ne t dops), delete_run_table,
      delete_run_conditions]
  · intro q hq
    have hspec := (Select.build_some_spec _ q hq).2.2.2.2
    rw [hspec]
    simp only [selectText, selectCoreText]
    rw [select_run_table, select_run_conditions]
  · obtain ⟨hc, hr⟩ := update_run_inv t uops
    rw [update_build_eq _ hc hr, update_run_table, update_run_conditions]

/-- Witness for C5: two Delete filters render in call order joined by
` AND `; the Select conditions equal the filters in call order. -/
theorem filter_where_rendering_witness :
    (Delete.run "users" deleteSampleOps).build
        = some "DELETE FROM users WHERE name = $1 AND karma <= $2;"
    ∧ (Select.run "users" selectSampleOps).conditions = some ["name = $1"] := by
  have h := filter_where_rendering "users" deleteSampleOps selectSampleOps updateSampleOps
  constructor
  · rw [h.1]
    rfl
  · rw [h.2.1]
    rfl

/-- C6: `build()` emits no LIMIT clause when the limit is 0 (set explicitly
or never set) and no OFFSET clause when the offset is 0; when both are
non-zero the output ends with ` LIMIT <limit> OFFSET <offset>;` in that
order; repeated limit/offset calls are not additive — the last call wins. -/
theorem select_limit_offset (s : Select) (q : String) (hq : s.build = some q) (n m : Nat) :
    q = selectCoreText s ++ limitText s.limit ++ offsetText s.offset ++ ";"
    ∧ limitText 0 = "" ∧ offsetText 0 = ""
    ∧ (s.limit ≠ 0 → limitText s.limit = " LIMIT " ++ toString s.limit)
    ∧ (s.offset ≠ 0 → offsetText s.offset = " OFFSET " ++ toString s.offset)
    ∧ (Select.new s.table).limit = 0 ∧ (Select.new s.table).offset = 0
    ∧ ((s.setLimit n).setLimit m).limit = m
    ∧ ((s.setOffset n).setOffset m).offset = m := by
  refine ⟨(Select.build_some_spec s q hq).2.2.2.2, rfl, rfl, ?_, ?_, rfl, rfl, rfl, rfl⟩
  · intro h
    simp [limitText, h]
  · intro h
    simp [offsetText, h]

/-- Witness for C6: `limit(15).offset(30)` ends with ` LIMIT 15 OFFSET 30;`
in that order. -/
theorem select_limit_offset_witness :
    (Select.run "users" limitSampleOps).build
        = some "SELECT id, name FROM users LIMIT 15 OFFSET 30;"
    ∧ "SELECT id, name FROM users LIMIT 15 OFFSET 30;"
        = selectCoreText (Select.run "users" limitSampleOps)
          ++ limitText (Select.run "users" limitSampleOps).limit
          ++ offsetText (Select.run "users" limitSampleOps).offset ++ ";" :=
  ⟨by rfl, (select_limit_offset (Select.run "users" limitSampleOps) _ (by rfl) 7 15).1⟩

/-- C7: for every Insert builder with at least one `set` call, the rendered
column and value lists are mutually consistent: zipping them recovers exactly
the stored pairs, each zipped pair is the last value written for its column
(last write wins on duplicate field names), and `build()` renders the two
lists pairwise from the same enumeration. -/
theorem insert_columns_values_pairing (t : String) (ops : List InsertOp)
    (hset : ∃ f v, InsertOp.set f v ∈ ops) :
    ((Insert.run t ops).values.map Prod.fst).zip ((Insert.run t ops).values.map Prod.snd)
        = (Insert.run t ops).values
    ∧ (∀ f v, ((f, v) ∈ (Insert.run t ops).values ↔ lastSetI ops f = some v))
    ∧ (∀ p ∈ ((Insert.run t ops).values.map Prod.fst).zip
          ((Insert.run t ops).values.map Prod.snd),
        lastSetI ops p.1 = some p.2)
    ∧ (Insert.run t ops).build
        = some ("INSERT INTO " ++ t ++ " ("
            ++ sepConcat ", " ((Insert.run t ops).values.map Prod.fst)
            ++ ") VALUES (" ++ sepConcat ", " ((Insert.run t ops).values.map Prod.snd)
            ++ ")" ++ returningText (Insert.run t ops).returns ++ ";") := by
  have hzip := zip_map_fst_snd_self (Insert.run t ops).values
  have hmemiff : ∀ f v, ((f, v) ∈ (Insert.run t ops).values ↔ lastSetI ops f = some v) := by
    intro f v
    rw [mem_iff_aListLookup f v _ (Insert.run_keys_nodup t ops), Insert.run_lookup]
  refine ⟨hzip, hmemiff, ?_, ?_⟩
  · intro p hp
    rw [hzip] at hp
    rcases p with ⟨f, v⟩
    exact (hmemiff f v).mp hp
  · rw [insert_build_eq _ (Insert.run_values_ne t ops hset) (Insert.run_returns_ne t ops),
      insert_run_table]

/-- Witness for C7: `name` is set twice — the rendered value list pairs the
last written value with the `name` column. -/
theorem insert_columns_values_pairing_witness :
    (Insert.run "users" insertSampleOps).build
        = some "INSERT INTO users (name, karma) VALUES ($3, $2) RETURNING id;"
    ∧ (("name", "$3") ∈ (Insert.run "users" insertSampleOps).values
        ↔ lastSetI insertSampleOps "name" = some "$3") := by
  have h := insert_columns_values_pairing "users" insertSampleOps ⟨"name", "$1", by decide⟩
  refine ⟨?_, h.2.1 "name" "$3"⟩
  rw [h.2.2.2]
  rfl

/-- C8: for every table name `t`, building a freshly constructed Select with
no configuration calls yields exactly `SELECT * FROM t;` — fields default to
`*` and no join, WHERE, GROUP BY, HAVING, ORDER BY, LIMIT or OFFSET section
is emitted. -/
theorem select_default_build (t : String) :
    (Select.new t).build = some ("SELECT * FROM " ++ t ++ ";") := by
  have h := select_build_eq (Select.new t) (by simp [Select.new]) (by simp [Select.new])
    (by simp [Select.new]) (by simp [Select.new])
  rw [h]
  simp [selectText, selectCoreText, fieldsText, aliasText, joinsText, whereText, groupText,
    havingText, orderText, limitText, offsetText, Select.new,
    String.append_assoc, String.append_empty, String.empty_append]

/-- C9 counterexample: `fields` called with the empty list initializes the
fields collection as present-but-empty, violating the claimed invariant. -/
theorem select_fields_empty_but_initialized :
    (Select.run "users" [SelectOp.fields []]).fields = some [] := rfl

/-- C9 amended: every optional collection of every builder is non-empty once
initialized, for every call sequence — except that `Select::fields` preserves
the invariant only when each `fields` call passes a non-empty list (an empty
list initializes the collection as present-but-empty). -/
theorem collections_never_empty_amended (t : String) (dops : List DeleteOp)
    (iops : List InsertOp) (sops : List SelectOp) (uops : List UpdateOp)
    (hfs : ∀ fs, SelectOp.fields fs ∈ sops → fs ≠ []) :
    (Delete.run t dops).conditions ≠ some []
    ∧ (Insert.run t iops).returns ≠ some []
    ∧ SelectInv (Select.run t sops)
    ∧ (Update.run t uops).conditions ≠ some []
    ∧ (Update.run t uops).returns ≠ some [] :=
  ⟨delete_run_conditions_ne t dops, Insert.run_returns_ne t iops,
   select_run_inv t sops hfs, (update_run_inv t uops).1, (update_run_inv t uops).2⟩

/-- Witness for the amended C9 at concrete call sequences. -/
theorem collections_never_empty_amended_witness :
    (Delete.run "users" deleteSampleOps).conditions ≠ some []
    ∧ SelectInv (Select.run "users" orderSampleOps) := by
  have h := collections_never_empty_amended "users" deleteSampleOps insertSampleOps
    orderSampleOps updateSampleOps
    (by
      intro fs hmem
      simp [orderSampleOps] at hmem
      subst hmem
      decide)
  exact ⟨h.1, h.2.2.1⟩

/-- C10: for every table name `t`, `build()` on a freshly constructed Update
with no `set` calls succeeds and returns exactly `UPDATE t SET ;` (the
assignment list renders as the empty string) — unlike Insert, whose build
fails without at least one `set` call (it joins the empty column list). -/
theorem update_default_build (t : String) :
    (Update.new t).build = some ("UPDATE " ++ t ++ " SET ;")
    ∧ (Insert.new t).build = none := by
  constructor
  · have h := update_build_eq (Update.new t) (by simp [Update.new]) (by simp [Update.new])
    rw [h]
    simp [Update.new, whereText, returningText, sepConcat, String.append_assoc,
      String.append_empty]
  · rfl

end query_builder
